import Mathlib

/-!
Verification of the visualization-specification-to-chart-rendering pipeline:
shallow embedding of the column-semantics analyzer, the chart-spec
validator/repair, the fallback recommendation engine, the trace/layout
compiler's data-extraction and heatmap pivot, the number formatting and tick
generation, and the snapshot-based chart history store, together with proofs
of the specified properties.

Conventions of the embedding:
* JavaScript numbers are modelled as exact rationals (ℚ); the exact model has
  no NaN and no infinities, so `parseFloat` returns `Option ℚ` with `none`
  standing for NaN (and for the non-finite `Infinity` results, which fall
  outside the exact numeric model and are rejected by every finiteness check
  in this code).
* Table cells are one of number / string / boolean / null, plus `undefined` for
  the JavaScript `undefined` produced by out-of-range array access.
* Untrusted raw Plotly payloads are arbitrary JSON-like values (`JVal`).
-/

namespace Viz

section

attribute [local semireducible] Rat.add Rat.mul Rat.inv Rat.sub Rat.ofScientific

/-- A JSON-like value: the shape of untrusted raw Plotly trace payloads. -/
inductive JVal where
  | num (q : ℚ)
  | str (s : String)
  | jbool (b : Bool)
  | null
  | undefined
  | arr (elems : List JVal)
  | obj (fields : List (String × JVal))

/-- A table cell value: number, string, boolean or null (the data model of
`QueryResults.rows`); `undefined` models JavaScript `undefined` from
out-of-range row access. -/
inductive Cell where
  | num (q : ℚ)
  | str (s : String)
  | cbool (b : Bool)
  | null
  | undefined
deriving DecidableEq

/-- The normalized tabular query output (interface `QueryResults`). -/
structure QueryResults where
  columns : List String
  rows : List (List Cell)
  rowCount : ℕ
  truncated : Bool := false

/-- JavaScript `row[i]`: the cell at index `i`, `undefined` when out of range. -/
def getCell (row : List Cell) (i : ℕ) : Cell :=
  row.getD i .undefined

/-! ### The raw-mode whitelist validator (PlotlyChart: validatePlotlyData) -/

/-- The fixed allow-list of Plotly trace properties (`ALLOWED_TRACE_PROPS`). -/
def ALLOWED_TRACE_PROPS : List String :=
  ["type", "x", "y", "z", "text", "marker", "line", "mode", "name",
   "hovertemplate", "hoverinfo", "textposition", "textfont", "textinfo",
   "fill", "fillcolor", "labels", "values", "colorscale", "showlegend",
   "legendgroup", "opacity", "orientation", "width", "base", "offset",
   "hole", "pull", "domain", "texttemplate", "insidetextorientation",
   "customdata", "ids", "error_x", "error_y", "connectgaps", "stackgroup"]

/-- Property lookup on a JavaScript object (`trace.key`); object keys are
unique, so the first binding is the binding. -/
def lookupField (fields : List (String × JVal)) (key : String) : Option JVal :=
  (fields.find? (fun kv => kv.1 == key)).map (fun kv => kv.2)

/-- Models `typeof v === 'string'` on an optional property. -/
def isStringVal : Option JVal → Bool
  | some (.str _) => true
  | _ => false

/-- Models `Array.isArray(v)` on an optional property. -/
def isArrayVal : Option JVal → Bool
  | some (.arr _) => true
  | _ => false

/-- Models `isValidPlotlyTrace`: the value must be a non-null object and have a
string `type` property, or one of `x`, `y`, `values` as an array.
(A JavaScript array passes the `typeof === 'object'` test but has none of
those named properties, so it is rejected just the same.) -/
def isValidPlotlyTrace : JVal → Bool
  | .obj fields =>
      isStringVal (lookupField fields "type") ||
      (isArrayVal (lookupField fields "x") ||
       isArrayVal (lookupField fields "y") ||
       isArrayVal (lookupField fields "values"))
  | _ => false

/-- The per-trace whitelist pass of `validatePlotlyData`: keep exactly the
properties whose key is in `ALLOWED_TRACE_PROPS` (dropped keys are logged,
a side effect outside the value model). -/
def validateTraceProps (fields : List (String × JVal)) : List (String × JVal) :=
  fields.filter (fun kv => ALLOWED_TRACE_PROPS.contains kv.1)

/-- Models `validatePlotlyData`: drop entries that are not valid traces, and strip
every non-whitelisted property from the remaining ones. -/
def validatePlotlyData (data : List JVal) : List (List (String × JVal)) :=
  (data.filter isValidPlotlyTrace).map (fun t =>
    match t with
    | .obj fields => validateTraceProps fields
    | _ => [])

/-- Keys of a validated trace. -/
def traceKeys (t : List (String × JVal)) : List String :=
  t.map (fun kv => kv.1)

/-- C1: for every raw-mode input accepted by `validatePlotlyData`, every key
of every output trace is a member of the fixed allow-list
`ALLOWED_TRACE_PROPS`, for arbitrary input keys; keys outside the allow-list
never appear in the output. -/
theorem validatePlotlyData_keys_allowed (data : List JVal)
    (t : List (String × JVal)) (ht : t ∈ validatePlotlyData data)
    (k : String) (hk : k ∈ traceKeys t) :
    k ∈ ALLOWED_TRACE_PROPS := by
  rcases List.mem_map.1 ht with ⟨t0, _ht0, rfl⟩
  rcases List.mem_map.1 hk with ⟨kv, hkv, rfl⟩
  cases t0 with
  | obj fields =>
      have hmem := List.mem_filter.1 hkv
      exact List.elem_iff.1 hmem.2
  | num q => simp at hkv
  | str s => simp at hkv
  | jbool b => simp at hkv
  | null => simp at hkv
  | undefined => simp at hkv
  | arr elems => simp at hkv

/-- Witness for C1 at a concrete malicious payload: a trace carrying an
unknown `onclick` key is accepted (it has a string `type`), the surviving
key `type` is in the allow-list, and the `onclick` key is gone. -/
theorem validatePlotlyData_keys_allowed_witness :
    validatePlotlyData
        [JVal.obj [("type", JVal.str "bar"), ("onclick", JVal.str "alert(1)"),
                   ("x", JVal.arr [JVal.num 1])]] =
      [[("type", JVal.str "bar"), ("x", JVal.arr [JVal.num 1])]] ∧
    "type" ∈ ALLOWED_TRACE_PROPS := by
  refine ⟨rfl, ?_⟩
  have ht : [("type", JVal.str "bar"), ("x", JVal.arr [JVal.num 1])] ∈
      validatePlotlyData
        [JVal.obj [("type", JVal.str "bar"), ("onclick", JVal.str "alert(1)"),
                   ("x", JVal.arr [JVal.num 1])]] := by
    rw [show validatePlotlyData
        [JVal.obj [("type", JVal.str "bar"), ("onclick", JVal.str "alert(1)"),
                   ("x", JVal.arr [JVal.num 1])]] =
      [[("type", JVal.str "bar"), ("x", JVal.arr [JVal.num 1])]] from rfl]
    exact List.mem_singleton.2 rfl
  refine validatePlotlyData_keys_allowed _ _ ht "type" ?_
  exact List.mem_cons_self _ _

/-! ### JavaScript string and number primitives -/

/-- Whether the first list starts with the second (character-wise). -/
def startsWithChars : List Char → List Char → Bool
  | _, [] => true
  | [], _ :: _ => false
  | c :: cs, d :: ds => c == d && startsWithChars cs ds

/-- Whether `needle` occurs contiguously inside `hay`. -/
def charsInclude (hay needle : List Char) : Bool :=
  startsWithChars hay needle ||
    match hay with
    | [] => false
    | _ :: cs => charsInclude cs needle

/-- JavaScript `String.prototype.includes`. -/
def strIncludes (hay needle : String) : Bool :=
  charsInclude hay.data needle.data

/-- ASCII lowercasing of one character. -/
def lowerChar (c : Char) : Char :=
  if 'A' ≤ c && c ≤ 'Z' then Char.ofNat (c.toNat + 32) else c

/-- JavaScript `String.prototype.toLowerCase` (this code lowercases only
ASCII column names and format keywords). -/
def jsToLower (s : String) : String :=
  String.mk (s.data.map lowerChar)

/-- ASCII decimal digit test. -/
def isAsciiDigit (c : Char) : Bool :=
  '0' ≤ c && c ≤ '9'

/-- Numeric value of an ASCII digit. -/
def digitVal (c : Char) : ℕ :=
  c.toNat - '0'.toNat

/-- The natural number denoted by a digit string. -/
def digitsToNat (ds : List Char) : ℕ :=
  ds.foldl (fun acc c => acc * 10 + digitVal c) 0

/-- JavaScript leading-whitespace characters recognized by `parseFloat`. -/
def isJsSpace (c : Char) : Bool :=
  c == ' ' || c == '\t' || c == '\n' || c == '\r'

/-- The exponent suffix of a float literal; an `e` not followed by digits is
ignored (`parseFloat("1e") = 1`). -/
def parseExpPart (cs : List Char) : Int :=
  let signAndRest : Int × List Char :=
    match cs with
    | '-' :: t => (-1, t)
    | '+' :: t => (1, t)
    | t => (1, t)
  let ds := signAndRest.2.takeWhile isAsciiDigit
  if ds.isEmpty then 0 else signAndRest.1 * (digitsToNat ds : Int)

/-- Multiply by a signed power of ten. -/
def applyPow10 (m : ℚ) (e : Int) : ℚ :=
  if 0 ≤ e then m * (10 : ℚ) ^ e.toNat else m / (10 : ℚ) ^ (-e).toNat

/-- The unsigned part of `parseFloat`: digits, optional fraction, optional
exponent; `none` when no digits are present at all (NaN). -/
def parseFloatCore (cs : List Char) : Option ℚ :=
  let intDigits := cs.takeWhile isAsciiDigit
  let rest1 := cs.dropWhile isAsciiDigit
  let fracAndRest : List Char × List Char :=
    match rest1 with
    | '.' :: t => (t.takeWhile isAsciiDigit, t.dropWhile isAsciiDigit)
    | _ => ([], rest1)
  if intDigits.isEmpty && fracAndRest.1.isEmpty then none
  else
    let mantissa : ℚ :=
      (digitsToNat intDigits : ℚ) +
        (digitsToNat fracAndRest.1 : ℚ) / (10 : ℚ) ^ fracAndRest.1.length
    let e : Int :=
      match fracAndRest.2 with
      | 'e' :: t => parseExpPart t
      | 'E' :: t => parseExpPart t
      | _ => 0
    some (applyPow10 mantissa e)

/-- JavaScript `parseFloat` over the exact numeric model: leading whitespace,
optional sign, decimal digits with optional fraction and exponent. `none`
models NaN, and also the non-finite `Infinity` results, which fall outside
the exact-rational value model (every use in this code either feeds the
result to a finiteness check that rejects them or never receives them). -/
def parseFloat (s : String) : Option ℚ :=
  let cs := s.data.dropWhile isJsSpace
  let signAndRest : ℚ × List Char :=
    match cs with
    | '-' :: t => (-1, t)
    | '+' :: t => (1, t)
    | t => (1, t)
  if startsWithChars signAndRest.2 "Infinity".data then none
  else (parseFloatCore signAndRest.2).map (fun q => signAndRest.1 * q)

/-- Left-pad a digit string with zeros to length `d`. -/
def padWithZeros (s : String) (d : ℕ) : String :=
  if s.length < d then String.mk (List.replicate (d - s.length) '0') ++ s else s

/-- ECMAScript `Number.prototype.toFixed` on exact rationals: with the sign
split off and `y = |x|`, the digit string is the integer `n` minimizing
`|n / 10^d - y|`, ties toward the larger `n`. -/
def toFixed (x : ℚ) (d : ℕ) : String :=
  let sign := if x < 0 then "-" else ""
  let y := |x|
  let n : ℕ := (⌊y * (10 : ℚ) ^ d + 1 / 2⌋).toNat
  if d = 0 then sign ++ toString n
  else sign ++ toString (n / 10 ^ d) ++ "." ++ padWithZeros (toString (n % 10 ^ d)) d

/-- Thousands grouping over a reversed digit list. -/
def groupChunks : List Char → List Char
  | a :: b :: c :: d :: rest => a :: b :: c :: ',' :: groupChunks (d :: rest)
  | l => l

/-- Digit grouping of a natural number (`1234567 ↦ "1,234,567"`). -/
def groupThousands (n : ℕ) : String :=
  String.mk (groupChunks (toString n).data.reverse).reverse

/-- Models `Number.prototype.toLocaleString` in the default en-US locale:
thousands grouping, at most three fraction digits, trailing zeros dropped.
This branch is reached only for formats outside the recognized set; no claim
depends on it. -/
def jsToLocaleString (x : ℚ) : String :=
  let sign := if x < 0 then "-" else ""
  let n : ℕ := (⌊|x| * 1000 + 1 / 2⌋).toNat
  let intPart := n / 1000
  let frac := n % 1000
  if frac = 0 then sign ++ groupThousands intPart
  else
    let fracStr := padWithZeros (toString frac) 3
    let trimmed := String.mk (fracStr.data.reverse.dropWhile (fun c => c == '0')).reverse
    sign ++ groupThousands intPart ++ "." ++ trimmed

/-! ### Number formatting (PlotlyChart: getNumberFormatConfig,
formatWithNumberFormat) -/

/-- Number format configuration; the field `pre` embeds the source field
named like the string "pre" + "fix" (a currency symbol put in front). -/
structure NumberFormatConfig where
  divisor : ℚ
  suffix : String
  multiplier : Option ℚ := none
  pre : Option String := none
deriving DecidableEq

/-- Models `getNumberFormatConfig`: the divisor/suffix table for the semantic
number formats; `compact` and unrecognized formats yield `none`. -/
def getNumberFormatConfig : Option String → Option NumberFormatConfig
  | none => none
  | some format =>
    let formatLower := jsToLower format
    if formatLower == "billions" then some { divisor := 1000000000, suffix := "B" }
    else if formatLower == "millions" then some { divisor := 1000000, suffix := "M" }
    else if formatLower == "thousands" then some { divisor := 1000, suffix := "K" }
    else if formatLower == "percentage" then
      some { divisor := 1, suffix := "%", multiplier := some 100 }
    else if formatLower == "currency" then
      some { divisor := 1, suffix := "", pre := some "$" }
    else none

/-- Models `formatWithNumberFormat`: scale by the configured divisor/multiplier and
render with `toFixed`; `compact` auto-selects the divisor by magnitude;
unrecognized formats fall back to `toLocaleString`. -/
def formatWithNumberFormat (value : ℚ) (format : Option String) (decimals : ℕ) : String :=
  match getNumberFormatConfig format with
  | none =>
    if format.map (fun f => jsToLower f) == some "compact" then
      let absValue := |value|
      if 1000000000 ≤ absValue then toFixed (value / 1000000000) decimals ++ "B"
      else if 1000000 ≤ absValue then toFixed (value / 1000000) decimals ++ "M"
      else if 1000 ≤ absValue then toFixed (value / 1000) decimals ++ "K"
      else toFixed value decimals
    else jsToLocaleString value
  | some config =>
    let displayValue := value / config.divisor
    let displayValue :=
      match config.multiplier with
      | some m => displayValue * m
      | none => displayValue
    (config.pre.getD "") ++ toFixed displayValue decimals ++ config.suffix

/-- C9: `formatWithNumberFormat 2420000000 "billions" 1 = "2.4B"` and
`formatWithNumberFormat 0.157 "percentage" 0 = "16%"` — billions divide by
10^9 with suffix `B`, percentage multiplies by 100 and appends `%`, rounding
per fixed-decimal formatting. -/
theorem formatWithNumberFormat_examples :
    formatWithNumberFormat 2420000000 (some "billions") 1 = "2.4B" ∧
    formatWithNumberFormat (157 / 1000) (some "percentage") 0 = "16%" := by
  constructor <;> decide

/-! ### The chart history store (chartHistoryStore.ts) -/

/-- One recorded visualization state (`ChartSnapshot`). The source snapshot
also carries a freshly generated `id` and a `Date.now()` timestamp; both are
nondeterministic fresh values never read back by the store's logic, so the
embedding omits them. The spec payload is opaque to the store, hence a type
parameter. -/
structure ChartSnapshot (Spec : Type) where
  visualizationSpec : Spec
  description : String
deriving DecidableEq

/-- Per-query chart history (`QueryChartHistory`); `currentIndex` is a
JavaScript number, modelled as an integer. -/
structure QueryChartHistory (Spec : Type) where
  originalSpec : Spec
  snapshots : List (ChartSnapshot Spec)
  currentIndex : ℤ
deriving DecidableEq

/-- Maximum snapshots kept per query (`maxSnapshots` in the store). -/
def maxSnapshots : ℕ := 10

/-- JavaScript `array.slice(0, k)` for an integer upper bound (negative
bounds clamp to the empty prefix, as `Int.toNat` does). -/
def sliceTo {α : Type} (l : List α) (k : ℤ) : List α :=
  l.take k.toNat

/-- Models `initializeHistory`: no-op if a history already exists for the query id,
else a fresh history whose single snapshot holds the original spec. -/
def initializeHistory {Spec : Type} (originalSpec : Spec)
    (st : Option (QueryChartHistory Spec)) : Option (QueryChartHistory Spec) :=
  match st with
  | some h => some h
  | none =>
    some { originalSpec := originalSpec,
           snapshots := [⟨originalSpec, "Original chart"⟩],
           currentIndex := 0 }

/-- Models `addSnapshot`: initialize if no history exists; otherwise discard the
redo branch (`slice(0, currentIndex + 1)`), append the new snapshot, trim to
`maxSnapshots` keeping the first snapshot plus the most recent
`maxSnapshots - 1` (`[newSnapshots[0], ...newSnapshots.slice(-(max-1))]`),
and point `currentIndex` at the last snapshot. -/
def addSnapshot {Spec : Type} (spec : Spec) (description : String)
    (st : Option (QueryChartHistory Spec)) : Option (QueryChartHistory Spec) :=
  match st with
  | none => initializeHistory spec none
  | some h =>
    let newSnapshots :=
      sliceTo h.snapshots (h.currentIndex + 1) ++ [⟨spec, description⟩]
    let trimmedSnapshots :=
      if maxSnapshots < newSnapshots.length then
        newSnapshots.take 1 ++
          newSnapshots.drop (newSnapshots.length - (maxSnapshots - 1))
      else newSnapshots
    some { h with snapshots := trimmedSnapshots,
                  currentIndex := (trimmedSnapshots.length : ℤ) - 1 }

/-- Models `undo` (state part): step back one snapshot when `currentIndex > 0`,
else leave the state unchanged (the source returns `null` then; the
returned spec is the snapshot at the new index and is not modelled). -/
def undo {Spec : Type}
    (st : Option (QueryChartHistory Spec)) : Option (QueryChartHistory Spec) :=
  match st with
  | none => none
  | some h =>
    if h.currentIndex ≤ 0 then some h
    else some { h with currentIndex := h.currentIndex - 1 }

/-- Models `redo` (state part): step forward one snapshot when
`currentIndex < snapshots.length - 1`, else leave the state unchanged. -/
def redo {Spec : Type}
    (st : Option (QueryChartHistory Spec)) : Option (QueryChartHistory Spec) :=
  match st with
  | none => none
  | some h =>
    if (h.snapshots.length : ℤ) - 1 ≤ h.currentIndex then some h
    else some { h with currentIndex := h.currentIndex + 1 }

/-- Models `resetToOriginal` (state part): set `currentIndex` to 0 when a history
exists. -/
def resetToOriginal {Spec : Type}
    (st : Option (QueryChartHistory Spec)) : Option (QueryChartHistory Spec) :=
  match st with
  | none => none
  | some h => some { h with currentIndex := 0 }

/-- One history-store operation on a single query id. -/
inductive HistOp (Spec : Type) where
  | init (spec : Spec)
  | add (spec : Spec) (description : String)
  | undo
  | redo
  | reset

/-- Apply one operation to the (possibly absent) history of one query id. -/
def applyOp {Spec : Type} (st : Option (QueryChartHistory Spec)) :
    HistOp Spec → Option (QueryChartHistory Spec)
  | .init spec => initializeHistory spec st
  | .add spec description => addSnapshot spec description st
  | .undo => undo st
  | .redo => redo st
  | .reset => resetToOriginal st

/-- Run a sequence of operations from the uninitialized state. -/
def runOps {Spec : Type} (ops : List (HistOp Spec)) :
    Option (QueryChartHistory Spec) :=
  ops.foldl applyOp none

/-- The history invariant of C3: the first snapshot holds the original spec,
the snapshot count respects the retention bound, and the current index is in
range. -/
def histInv {Spec : Type} (h : QueryChartHistory Spec) : Prop :=
  h.snapshots.head?.map (fun s => s.visualizationSpec) = some h.originalSpec ∧
  h.snapshots.length ≤ maxSnapshots ∧
  0 ≤ h.currentIndex ∧ h.currentIndex < (h.snapshots.length : ℤ)

lemma head?_take_of_ne_zero {α : Type} (l : List α) (k : ℕ) (hk : k ≠ 0) :
    (l.take k).head? = l.head? := by
  cases l with
  | nil => simp
  | cons a t => cases k with
    | zero => exact absurd rfl hk
    | succ n => simp

lemma head?_append_left {α : Type} {l l' : List α} (h : l ≠ []) :
    (l ++ l').head? = l.head? := by
  cases l with
  | nil => exact absurd rfl h
  | cons a t => simp

lemma length_sliceTo_le {α : Type} (l : List α) (k : ℤ) :
    (sliceTo l k).length ≤ l.length := by
  unfold sliceTo
  rw [List.length_take]
  exact min_le_right _ _

lemma head?_sliceTo {α : Type} {l : List α} {k : ℤ} (hk : 0 < k) :
    (sliceTo l k).head? = l.head? := by
  unfold sliceTo
  exact head?_take_of_ne_zero _ _ (by omega)

lemma histInv_applyOp {Spec : Type} {st : Option (QueryChartHistory Spec)}
    (hst : ∀ h, st = some h → histInv h) (op : HistOp Spec) :
    ∀ h, applyOp st op = some h → histInv h := by
  have hmax : maxSnapshots = 10 := rfl
  intro h happ
  cases op with
  | init spec =>
    cases st with
    | some h0 =>
      simp only [applyOp, initializeHistory, Option.some_inj] at happ
      subst happ
      exact hst _ rfl
    | none =>
      simp only [applyOp, initializeHistory, Option.some_inj] at happ
      subst happ
      simp [histInv, maxSnapshots]
  | add spec description =>
    cases st with
    | none =>
      simp only [applyOp, addSnapshot, initializeHistory, Option.some_inj] at happ
      subst happ
      simp [histInv, maxSnapshots]
    | some h0 =>
      obtain ⟨hhead, hlen, hge, hlt⟩ := hst h0 rfl
      have hsne : h0.snapshots ≠ [] := by
        intro hnil
        rw [hnil] at hlt
        simp at hlt
        omega
      have hslice_le : (sliceTo h0.snapshots (h0.currentIndex + 1)).length ≤
          h0.snapshots.length := length_sliceTo_le _ _
      have htkne : sliceTo h0.snapshots (h0.currentIndex + 1) ≠ [] := by
        have h2 : 0 < h0.snapshots.length := List.length_pos.mpr hsne
        have h1 : 0 < (sliceTo h0.snapshots (h0.currentIndex + 1)).length := by
          unfold sliceTo
          rw [List.length_take]
          omega
        exact List.length_pos.mp h1
      simp only [applyOp, addSnapshot, Option.some_inj] at happ
      subst happ
      set tk := sliceTo h0.snapshots (h0.currentIndex + 1) with htkdef
      set ns := tk ++ [(⟨spec, description⟩ : ChartSnapshot Spec)] with hnsdef
      have hnslen : ns.length = tk.length + 1 := by simp [hnsdef]
      have hnsne : ns ≠ [] := by simp [hnsdef]
      have hnspos : 0 < ns.length := List.length_pos.mpr hnsne
      have hnshead : ns.head? = h0.snapshots.head? := by
        rw [hnsdef, head?_append_left htkne, htkdef]
        exact head?_sliceTo (by omega)
      by_cases hbig : maxSnapshots < ns.length
      · have h11 : ns.length = 11 := by omega
        have httne : ns.take 1 ≠ [] := by
          have : 0 < (ns.take 1).length := by
            rw [List.length_take]
            omega
          exact List.length_pos.mp this
        have htl : (ns.take 1 ++ ns.drop (ns.length - (maxSnapshots - 1))).length = 10 := by
          rw [List.length_append, List.length_take, List.length_drop, hmax]
          omega
        refine ⟨?_, ?_, ?_, ?_⟩
        · show (if maxSnapshots < ns.length then
              ns.take 1 ++ ns.drop (ns.length - (maxSnapshots - 1))
            else ns).head?.map (fun s => s.visualizationSpec) = some h0.originalSpec
          rw [if_pos hbig, head?_append_left httne,
            head?_take_of_ne_zero _ _ one_ne_zero, hnshead]
          exact hhead
        · show (if maxSnapshots < ns.length then
              ns.take 1 ++ ns.drop (ns.length - (maxSnapshots - 1))
            else ns).length ≤ maxSnapshots
          rw [if_pos hbig, htl, hmax]
        · show 0 ≤ ((if maxSnapshots < ns.length then
              ns.take 1 ++ ns.drop (ns.length - (maxSnapshots - 1))
            else ns).length : ℤ) - 1
          rw [if_pos hbig, htl]
          decide
        · show ((if maxSnapshots < ns.length then
              ns.take 1 ++ ns.drop (ns.length - (maxSnapshots - 1))
            else ns).length : ℤ) - 1 < ((if maxSnapshots < ns.length then
              ns.take 1 ++ ns.drop (ns.length - (maxSnapshots - 1))
            else ns).length : ℤ)
          omega
      · refine ⟨?_, ?_, ?_, ?_⟩
        · show (if maxSnapshots < ns.length then
              ns.take 1 ++ ns.drop (ns.length - (maxSnapshots - 1))
            else ns).head?.map (fun s => s.visualizationSpec) = some h0.originalSpec
          rw [if_neg hbig, hnshead]
          exact hhead
        · show (if maxSnapshots < ns.length then
              ns.take 1 ++ ns.drop (ns.length - (maxSnapshots - 1))
            else ns).length ≤ maxSnapshots
          rw [if_neg hbig]
          omega
        · show 0 ≤ ((if maxSnapshots < ns.length then
              ns.take 1 ++ ns.drop (ns.length - (maxSnapshots - 1))
            else ns).length : ℤ) - 1
          rw [if_neg hbig]
          omega
        · show ((if maxSnapshots < ns.length then
              ns.take 1 ++ ns.drop (ns.length - (maxSnapshots - 1))
            else ns).length : ℤ) - 1 < ((if maxSnapshots < ns.length then
              ns.take 1 ++ ns.drop (ns.length - (maxSnapshots - 1))
            else ns).length : ℤ)
          omega
  | undo =>
    cases st with
    | none => simp [applyOp, undo] at happ
    | some h0 =>
      obtain ⟨hhead, hlen, hge, hlt⟩ := hst h0 rfl
      by_cases hz : h0.currentIndex ≤ 0
      · rw [show applyOp (some h0) HistOp.undo = undo (some h0) from rfl,
          undo, if_pos hz, Option.some_inj] at happ
        subst happ
        exact ⟨hhead, hlen, hge, hlt⟩
      · rw [show applyOp (some h0) HistOp.undo = undo (some h0) from rfl,
          undo, if_neg hz, Option.some_inj] at happ
        subst happ
        refine ⟨hhead, hlen, ?_, ?_⟩
        · show 0 ≤ h0.currentIndex - 1
          omega
        · show h0.currentIndex - 1 < (h0.snapshots.length : ℤ)
          omega
  | redo =>
    cases st with
    | none => simp [applyOp, redo] at happ
    | some h0 =>
      obtain ⟨hhead, hlen, hge, hlt⟩ := hst h0 rfl
      by_cases hz : (h0.snapshots.length : ℤ) - 1 ≤ h0.currentIndex
      · rw [show applyOp (some h0) HistOp.redo = redo (some h0) from rfl,
          redo, if_pos hz, Option.some_inj] at happ
        subst happ
        exact ⟨hhead, hlen, hge, hlt⟩
      · rw [show applyOp (some h0) HistOp.redo = redo (some h0) from rfl,
          redo, if_neg hz, Option.some_inj] at happ
        subst happ
        refine ⟨hhead, hlen, ?_, ?_⟩
        · show 0 ≤ h0.currentIndex + 1
          omega
        · show h0.currentIndex + 1 < (h0.snapshots.length : ℤ)
          omega
  | reset =>
    cases st with
    | none => simp [applyOp, resetToOriginal] at happ
    | some h0 =>
      obtain ⟨hhead, hlen, hge, hlt⟩ := hst h0 rfl
      rw [show applyOp (some h0) HistOp.reset = resetToOriginal (some h0) from rfl,
        resetToOriginal, Option.some_inj] at happ
      subst happ
      refine ⟨hhead, hlen, le_refl 0, ?_⟩
      show (0 : ℤ) < (h0.snapshots.length : ℤ)
      omega

/-- C3: every history reachable by any sequence of `initializeHistory`,
`addSnapshot`, `undo`, `redo`, `resetToOriginal` operations on one query id
satisfies the invariant: the first snapshot holds the original spec, the
snapshot count never exceeds `maxSnapshots = 10`, and
`0 ≤ currentIndex < snapshots.length`. -/
theorem chartHistory_invariant {Spec : Type} (ops : List (HistOp Spec))
    (h : QueryChartHistory Spec) (hrun : runOps ops = some h) : histInv h := by
  suffices hgen : ∀ (st : Option (QueryChartHistory Spec)),
      (∀ h', st = some h' → histInv h') →
      ∀ h', ops.foldl applyOp st = some h' → histInv h' by
    exact hgen none (by intro h' hc; cases hc) h hrun
  clear hrun h
  induction ops with
  | nil =>
    intro st hst h' hr
    exact hst h' hr
  | cons op rest ih =>
    intro st hst h' hr
    exact ih (applyOp st op) (histInv_applyOp hst op) h' hr

/-- Witness for C3: a concrete run (initialize, edit, undo, edit again)
reaches a history, and the invariant holds there. -/
theorem chartHistory_invariant_witness :
    runOps ([HistOp.init 0, HistOp.add 1 "first edit", HistOp.undo,
             HistOp.add 2 "second edit"] : List (HistOp ℕ)) =
      some (⟨0, [⟨0, "Original chart"⟩, ⟨2, "second edit"⟩], 1⟩ :
        QueryChartHistory ℕ) ∧
    histInv (⟨0, [⟨0, "Original chart"⟩, ⟨2, "second edit"⟩], 1⟩ :
      QueryChartHistory ℕ) := by
  constructor
  · decide
  · exact chartHistory_invariant
      ([HistOp.init 0, HistOp.add 1 "first edit", HistOp.undo,
        HistOp.add 2 "second edit"] : List (HistOp ℕ)) _ (by decide)

/-- C4 counterexample: the claim "addSnapshot truncates to
`0..currentIndex` and then appends the new snapshot" is not the whole story
for every existing history: at a full history (10 snapshots, currentIndex
9) the store additionally trims the middle, so the result is not
truncate-plus-append (which would have 11 snapshots). -/
theorem addSnapshot_truncate_append_cex :
    (addSnapshot 99 "edit"
        (some (⟨0, [⟨0, "Original chart"⟩, ⟨1, "e"⟩, ⟨2, "e"⟩, ⟨3, "e"⟩,
                    ⟨4, "e"⟩, ⟨5, "e"⟩, ⟨6, "e"⟩, ⟨7, "e"⟩, ⟨8, "e"⟩,
                    ⟨9, "e"⟩], 9⟩ : QueryChartHistory ℕ))).map
        (fun h => h.snapshots) ≠
      some (sliceTo [⟨0, "Original chart"⟩, ⟨1, "e"⟩, ⟨2, "e"⟩, ⟨3, "e"⟩,
                     ⟨4, "e"⟩, ⟨5, "e"⟩, ⟨6, "e"⟩, ⟨7, "e"⟩, ⟨8, "e"⟩,
                     ⟨9, "e"⟩] ((9 : ℤ) + 1) ++ [⟨99, "edit"⟩]) := by
  decide

/-- C4 (amended): for every existing history, `addSnapshot` discards the
snapshots after `currentIndex`, appends the new snapshot and points
`currentIndex` at the new last position — exactly so whenever the truncated
list plus the new snapshot fits within `maxSnapshots` (beyond that the
store additionally trims the middle, keeping the first snapshot); in
particular [A,B,C] at index 1 (after an undo) plus `addSnapshot D` gives
[A,B,D] at index 2, with C gone. -/
theorem addSnapshot_discards_redo_branch {Spec : Type}
    (h : QueryChartHistory Spec) (spec : Spec) (description : String)
    (hfit : (sliceTo h.snapshots (h.currentIndex + 1)).length + 1 ≤ maxSnapshots) :
    addSnapshot spec description (some h) =
      some { h with
        snapshots := sliceTo h.snapshots (h.currentIndex + 1) ++
          [⟨spec, description⟩],
        currentIndex :=
          ((sliceTo h.snapshots (h.currentIndex + 1)).length : ℤ) } := by
  show some _ = some _
  have hnotbig : ¬ (maxSnapshots <
      (sliceTo h.snapshots (h.currentIndex + 1) ++
        [(⟨spec, description⟩ : ChartSnapshot Spec)]).length) := by
    simp only [List.length_append, List.length_cons, List.length_nil]
    omega
  simp only [addSnapshot, if_neg hnotbig]
  congr 1
  simp

/-- Witness for C4 at the claim's own example: snapshots [A,B,C] at index 2,
undo (index 1), then addSnapshot D gives [A,B,D] at index 2. -/
theorem addSnapshot_discards_redo_branch_witness :
    undo (some (⟨0, [⟨0, "A"⟩, ⟨1, "B"⟩, ⟨2, "C"⟩], 2⟩ :
        QueryChartHistory ℕ)) =
      some (⟨0, [⟨0, "A"⟩, ⟨1, "B"⟩, ⟨2, "C"⟩], 1⟩ : QueryChartHistory ℕ) ∧
    (sliceTo [(⟨0, "A"⟩ : ChartSnapshot ℕ), ⟨1, "B"⟩, ⟨2, "C"⟩]
        ((1 : ℤ) + 1)).length + 1 ≤ maxSnapshots ∧
    addSnapshot 3 "D" (some (⟨0, [⟨0, "A"⟩, ⟨1, "B"⟩, ⟨2, "C"⟩], 1⟩ :
        QueryChartHistory ℕ)) =
      some (⟨0, [⟨0, "A"⟩, ⟨1, "B"⟩, ⟨3, "D"⟩], 2⟩ : QueryChartHistory ℕ) := by
  refine ⟨by decide, by decide, ?_⟩
  exact addSnapshot_discards_redo_branch
    (⟨0, [⟨0, "A"⟩, ⟨1, "B"⟩, ⟨2, "C"⟩], 1⟩ : QueryChartHistory ℕ) 3 "D"
    (by decide)

/-! ### Column semantics analyzer (ResultsPanel: isNumeric, isTimeRelated,
analyzeColumns, getCardinality) -/

/-- The time-related column-name keywords. -/
def timeKeywords : List String :=
  ["date", "time", "year", "month", "day", "quarter", "week", "period",
   "timestamp"]

/-- The month names of the month-name pattern (tested case-insensitively as
substrings, matching the source's un-anchored alternation). -/
def monthNames : List String :=
  ["january", "february", "march", "april", "may", "june", "july",
   "august", "september", "october", "november", "december"]

/-- The anchored ISO-date pattern: four digits, `-` or `/`, two digits,
`-` or `/`, two digits, at the start of the string. -/
def isIsoDateStart (s : String) : Bool :=
  match s.data with
  | a :: b :: c :: d :: s1 :: e :: f :: s2 :: g :: h :: _ =>
      isAsciiDigit a && isAsciiDigit b && isAsciiDigit c && isAsciiDigit d &&
      (s1 == '-' || s1 == '/') && isAsciiDigit e && isAsciiDigit f &&
      (s2 == '-' || s2 == '/') && isAsciiDigit g && isAsciiDigit h
  | _ => false

/-- The quarter pattern `q` followed by 1–4, anywhere in the (lowercased)
string. -/
def hasQuarterTok : List Char → Bool
  | c :: d :: rest =>
      (c == 'q' && (d == '1' || d == '2' || d == '3' || d == '4')) ||
        hasQuarterTok (d :: rest)
  | _ => false

/-- Regular-expression word characters (for the year pattern's word
boundaries). -/
def isWordChar (c : Char) : Bool :=
  ('a' ≤ c && c ≤ 'z') || ('A' ≤ c && c ≤ 'Z') || isAsciiDigit c || c == '_'

/-- Whether `19xx` or `20xx` starts here, with a word boundary after. -/
def yearTokAt : List Char → Bool
  | a :: b :: c :: d :: rest =>
      ((a == '1' && b == '9') || (a == '2' && b == '0')) &&
      isAsciiDigit c && isAsciiDigit d &&
      (match rest with
       | [] => true
       | e :: _ => !isWordChar e)
  | _ => false

/-- Scan for the year pattern with a word boundary before each candidate
position (`prev` is the preceding character, if any). -/
def hasYearTok : Option Char → List Char → Bool
  | _, [] => false
  | prev, c :: rest =>
      ((match prev with
        | none => true
        | some p => !isWordChar p) && yearTokAt (c :: rest)) ||
        hasYearTok (some c) rest

/-- Models `isTimeRelated`: a time keyword in the lowercased column name, or — for
string samples — an ISO-date start, a month name, a quarter token, or a
word-bounded 4-digit year. -/
def isTimeRelated (columnName : String) (sampleValue : Cell) : Bool :=
  let lower := jsToLower columnName
  if timeKeywords.any (fun keyword => strIncludes lower keyword) then true
  else
    match sampleValue with
    | .str s =>
        isIsoDateStart s ||
        monthNames.any (fun m => strIncludes (jsToLower s) m) ||
        hasQuarterTok (jsToLower s).data ||
        hasYearTok none s.data
    | _ => false

/-- Models `isNumeric`: numbers (finite by construction in the exact model, where
the source checks `!isNaN && isFinite`), or strings that `parseFloat`
accepts as finite. -/
def isNumeric : Cell → Bool
  | .num _ => true
  | .str s => (parseFloat s).isSome
  | _ => false

/-- A column classification. -/
inductive ColClass where
  | time
  | numeric
  | categorical
deriving DecidableEq

/-- The if / else-if / else chain of `analyzeColumns` for one column. -/
def classifyValue (col : String) (v : Cell) : ColClass :=
  if isTimeRelated col v then .time
  else if isNumeric v then .numeric
  else .categorical

/-- The three column buckets produced by `analyzeColumns` (the source also
returns a `columnTypes` map; with unique column names — a stated invariant
of the data model — its entries coincide with `classifyValue` at each
column's position, which is how the one use of that map is modelled). -/
structure ColumnAnalysis where
  numericColumns : List String
  categoricalColumns : List String
  timeColumns : List String
deriving DecidableEq

/-- The `columns.forEach` of `analyzeColumns`, positionally indexed against
the first row. -/
def classifyFrom (firstRow : List Cell) : List String → ℕ → ColumnAnalysis
  | [], _ => ⟨[], [], []⟩
  | col :: rest, i =>
    let r := classifyFrom firstRow rest (i + 1)
    match classifyValue col (getCell firstRow i) with
    | .time => { r with timeColumns := col :: r.timeColumns }
    | .numeric => { r with numericColumns := col :: r.numericColumns }
    | .categorical => { r with categoricalColumns := col :: r.categoricalColumns }

/-- Models `analyzeColumns`: classify every column from the first row only (the
documented single-row sampling limitation); empty buckets when there are no
rows. -/
def analyzeColumns (results : QueryResults) : ColumnAnalysis :=
  match results.rows.head? with
  | none => ⟨[], [], []⟩
  | some firstRow => classifyFrom firstRow results.columns 0

/-- First-appearance-order deduplication (`[...new Set(xs)]`). -/
def dedupFirst {α : Type} [DecidableEq α] (l : List α) : List α :=
  l.foldl (fun acc a => if a ∈ acc then acc else acc ++ [a]) []

/-- Models `getCardinality`: number of distinct values in the named column's cells,
0 for an unknown column name (exact `indexOf` lookup). -/
def getCardinality (results : QueryResults) (columnName : String) : ℕ :=
  match results.columns.findIdx? (fun col => col == columnName) with
  | none => 0
  | some columnIndex =>
    (dedupFirst (results.rows.map (fun row => getCell row columnIndex))).length

/-! ### The visualization specification -/

/-- An axis of a structured visualization spec. The embedding keeps the
fields this pipeline's logic reads (`column`, `label`, `type`,
`numberFormat`, `decimals`); purely presentational fields (range, tick
format, grid visibility, font) are carried through untouched by every
function modelled here and are omitted. -/
structure VisualizationAxis where
  column : String
  label : Option String := none
  type : Option String := none
  numberFormat : Option String := none
  decimals : Option ℕ := none
deriving DecidableEq

/-- A structured visualization specification: the fields read by the
validator, the fallback engine and the trace compiler's data paths.
Presentation-only fields (colors, annotations, layout, data labels, group
by, aggregation) are omitted, and the raw-mode payloads are handled by
`validatePlotlyData` directly. -/
structure VisualizationSpec where
  chartType : String
  title : Option String := none
  xAxis : Option VisualizationAxis := none
  yAxis : Option VisualizationAxis := none
  zAxis : Option VisualizationAxis := none
  reasoning : Option String := none
deriving DecidableEq

/-! ### Fallback recommendation engine (ResultsPanel:
generateVisualizationSpec) -/

/-- Models `generateVisualizationSpec`: the ordered fallback rules. The final
rule's axis type consults the source's `columnTypes` map at the first
column, modelled by classifying that column positionally (coincides with
the map under the unique-column-names invariant). -/
def generateVisualizationSpec (results : QueryResults) : Option VisualizationSpec :=
  if results.rows.length = 0 ∨ results.columns.length < 2 then none
  else
    let a := analyzeColumns results
    if a.numericColumns.length = 0 then none
    else if 0 < a.timeColumns.length ∧ 0 < a.numericColumns.length then
      let t0 := a.timeColumns.headD ""
      let n0 := a.numericColumns.headD ""
      some { chartType := "line", title := some "Trend Over Time",
             xAxis := some { column := t0, label := some t0, type := some "time" },
             yAxis := some { column := n0, label := some n0, type := some "linear" },
             reasoning := some "Line chart selected because data contains time-series information, ideal for showing trends." }
    else if 0 < a.categoricalColumns.length ∧ 0 < a.numericColumns.length then
      let catCol := a.categoricalColumns.headD ""
      let n0 := a.numericColumns.headD ""
      let cardinality := getCardinality results catCol
      if cardinality ≤ 10 then
        some { chartType := "bar", title := some (n0 ++ " by " ++ catCol),
               xAxis := some { column := catCol, label := some catCol, type := some "category" },
               yAxis := some { column := n0, label := some n0, type := some "linear" },
               reasoning := some "Bar chart selected for comparing values across categories." }
      else
        some { chartType := "histogram", title := some ("Distribution of " ++ n0),
               yAxis := some { column := n0, label := some n0, type := some "linear" },
               reasoning := some "Histogram selected to show distribution with many categories." }
    else if 2 ≤ a.numericColumns.length then
      let n0 := a.numericColumns.headD ""
      let n1 := (a.numericColumns.drop 1).headD ""
      some { chartType := "scatter", title := some (n1 ++ " vs " ++ n0),
             xAxis := some { column := n0, label := some n0, type := some "linear" },
             yAxis := some { column := n1, label := some n1, type := some "linear" },
             reasoning := some "Scatter plot selected to show relationship between two numeric variables." }
    else if a.numericColumns.length = 1 then
      let n0 := a.numericColumns.headD ""
      some { chartType := "histogram", title := some ("Distribution of " ++ n0),
             yAxis := some { column := n0, label := some n0, type := some "linear" },
             reasoning := some "Histogram selected to show the distribution of values." }
    else
      let c0 := results.columns.headD ""
      let c1 := (results.columns.drop 1).headD ""
      let xType :=
        if classifyValue c0 (getCell (results.rows.headD []) 0) = ColClass.numeric
        then "linear" else "category"
      some { chartType := "bar", title := some "Data Visualization",
             xAxis := some { column := c0, label := some c0, type := some xType },
             yAxis := some { column := c1, label := some c1, type := some "linear" },
             reasoning := some "Bar chart selected as a general-purpose visualization." }

/-! ### Spec validator / repair (ResultsPanel: validateVisualizationSpec) -/

/-- JavaScript `a || b` on optional strings: the empty string is falsy. -/
def jsOrStr : Option String → Option String → Option String
  | some s, b => if s == "" then b else some s
  | none, b => b

/-- Models `validateVisualizationSpec`: repair axis references that are not
(exactly) present among the result's columns — first by a case-insensitive
substring match against existing columns, else the first column for x and
`columns[1] || columns[0]` for y — and default the title. (The `headD ""`
for x models the `undefined` that `columns[0]` yields only on an empty
column list.) -/
def validateVisualizationSpec (spec : VisualizationSpec)
    (results : QueryResults) : VisualizationSpec :=
  let columns := results.columns
  let newX :=
    match spec.xAxis with
    | none => none
    | some ax =>
      if columns.contains ax.column then some ax
      else
        match columns.find? (fun col =>
            strIncludes (jsToLower col) (jsToLower ax.column)) with
        | some similarColumn => some { ax with column := similarColumn }
        | none => some { ax with column := columns.headD "" }
  let newY :=
    match spec.yAxis with
    | none => none
    | some ax =>
      if columns.contains ax.column then some ax
      else
        match columns.find? (fun col =>
            strIncludes (jsToLower col) (jsToLower ax.column)) with
        | some similarColumn => some { ax with column := similarColumn }
        | none =>
          some { ax with column := (jsOrStr (columns.get? 1) (columns.get? 0)).getD "" }
  { spec with xAxis := newX, yAxis := newY,
              title := jsOrStr spec.title (some "Data Visualization") }

lemma classifyFrom_partition (firstRow : List Cell) (cols : List String) (i : ℕ) :
    (classifyFrom firstRow cols i).numericColumns.length +
      (classifyFrom firstRow cols i).categoricalColumns.length +
      (classifyFrom firstRow cols i).timeColumns.length = cols.length := by
  induction cols generalizing i with
  | nil => simp [classifyFrom]
  | cons col rest ih =>
    have hrec := ih (i + 1)
    simp only [classifyFrom]
    cases hcv : classifyValue col (getCell firstRow i) with
    | time =>
      simp
      omega
    | numeric =>
      simp
      omega
    | categorical =>
      simp
      omega

lemma analyzeColumns_of_rows_nil (results : QueryResults)
    (hrows : results.rows = []) : analyzeColumns results = ⟨[], [], []⟩ := by
  unfold analyzeColumns
  rw [hrows]
  rfl

lemma analyzeColumns_partition (results : QueryResults)
    (hrows : results.rows ≠ []) :
    (analyzeColumns results).numericColumns.length +
      (analyzeColumns results).categoricalColumns.length +
      (analyzeColumns results).timeColumns.length = results.columns.length := by
  obtain ⟨fr, t, hrl⟩ : ∃ fr t, results.rows = fr :: t := by
    cases hr : results.rows with
    | nil => exact absurd hr hrows
    | cons a b => exact ⟨a, b, rfl⟩
  unfold analyzeColumns
  rw [hrl]
  exact classifyFrom_partition fr results.columns 0

/-- C5 (code behaviour at the claim's scenario): a result whose single
column classifies as numeric — which is the only way to have exactly one
numeric column and no categorical or temporal columns, classification being
total over the columns — is declined by `generateVisualizationSpec` (it
returns no specification) because of its `columns.length < 2` guard, even
though its scenario-4 branch ("Single numeric column (histogram for
distribution)") is written to return a histogram for exactly this shape. -/
theorem generateVisualizationSpec_single_numeric_declines :
    analyzeColumns ⟨["revenue"], [[Cell.num 5]], 1, false⟩ =
      ⟨["revenue"], [], []⟩ ∧
    generateVisualizationSpec ⟨["revenue"], [[Cell.num 5]], 1, false⟩ = none := by
  constructor <;> decide

/-- C6: with no temporal columns, at least one categorical and at least one
numeric column, the fallback engine returns a bar chart over the first
categorical column (x) and the first numeric column (y) when the first
categorical column's cardinality is at most 10, and a histogram over the
first numeric column otherwise (cardinality 11 or more). -/
theorem generateVisualizationSpec_cardinality_switch (results : QueryResults)
    (ht : (analyzeColumns results).timeColumns = [])
    (hc : (analyzeColumns results).categoricalColumns ≠ [])
    (hn : (analyzeColumns results).numericColumns ≠ []) :
    generateVisualizationSpec results =
      (let catCol := (analyzeColumns results).categoricalColumns.headD ""
       let n0 := (analyzeColumns results).numericColumns.headD ""
       if getCardinality results catCol ≤ 10 then
         some { chartType := "bar", title := some (n0 ++ " by " ++ catCol),
                xAxis := some { column := catCol, label := some catCol,
                                type := some "category" },
                yAxis := some { column := n0, label := some n0,
                                type := some "linear" },
                reasoning := some "Bar chart selected for comparing values across categories." }
       else
         some { chartType := "histogram",
                title := some ("Distribution of " ++ n0),
                yAxis := some { column := n0, label := some n0,
                                type := some "linear" },
                reasoning := some "Histogram selected to show distribution with many categories." }) := by
  have hrows : results.rows ≠ [] := by
    intro hnil
    rw [analyzeColumns_of_rows_nil results hnil] at hn
    exact hn rfl
  have hpart := analyzeColumns_partition results hrows
  have hcpos : 0 < (analyzeColumns results).categoricalColumns.length :=
    List.length_pos.mpr hc
  have hnpos : 0 < (analyzeColumns results).numericColumns.length :=
    List.length_pos.mpr hn
  have hrpos : 0 < results.rows.length := List.length_pos.mpr hrows
  unfold generateVisualizationSpec
  rw [if_neg (by omega : ¬ (results.rows.length = 0 ∨ results.columns.length < 2))]
  rw [if_neg (by omega : ¬ (analyzeColumns results).numericColumns.length = 0)]
  rw [if_neg (by rw [ht]; simp :
    ¬ (0 < (analyzeColumns results).timeColumns.length ∧
       0 < (analyzeColumns results).numericColumns.length))]
  rw [if_pos ⟨hcpos, hnpos⟩]

/-- Witness for C6 at a boundary input: `region` has exactly 10 distinct
values, so the engine picks the bar chart over (`region`, `sales`). -/
theorem generateVisualizationSpec_cardinality_switch_witness :
    (analyzeColumns ⟨["region", "sales"],
      [[Cell.str "a", Cell.num 1], [Cell.str "b", Cell.num 2],
       [Cell.str "c", Cell.num 3], [Cell.str "d", Cell.num 4],
       [Cell.str "e", Cell.num 5], [Cell.str "f", Cell.num 6],
       [Cell.str "g", Cell.num 7], [Cell.str "h", Cell.num 8],
       [Cell.str "i", Cell.num 9], [Cell.str "j", Cell.num 10]], 10, false⟩).timeColumns = [] ∧
    (analyzeColumns ⟨["region", "sales"],
      [[Cell.str "a", Cell.num 1], [Cell.str "b", Cell.num 2],
       [Cell.str "c", Cell.num 3], [Cell.str "d", Cell.num 4],
       [Cell.str "e", Cell.num 5], [Cell.str "f", Cell.num 6],
       [Cell.str "g", Cell.num 7], [Cell.str "h", Cell.num 8],
       [Cell.str "i", Cell.num 9], [Cell.str "j", Cell.num 10]], 10, false⟩).categoricalColumns ≠ [] ∧
    (analyzeColumns ⟨["region", "sales"],
      [[Cell.str "a", Cell.num 1], [Cell.str "b", Cell.num 2],
       [Cell.str "c", Cell.num 3], [Cell.str "d", Cell.num 4],
       [Cell.str "e", Cell.num 5], [Cell.str "f", Cell.num 6],
       [Cell.str "g", Cell.num 7], [Cell.str "h", Cell.num 8],
       [Cell.str "i", Cell.num 9], [Cell.str "j", Cell.num 10]], 10, false⟩).numericColumns ≠ [] ∧
    generateVisualizationSpec ⟨["region", "sales"],
      [[Cell.str "a", Cell.num 1], [Cell.str "b", Cell.num 2],
       [Cell.str "c", Cell.num 3], [Cell.str "d", Cell.num 4],
       [Cell.str "e", Cell.num 5], [Cell.str "f", Cell.num 6],
       [Cell.str "g", Cell.num 7], [Cell.str "h", Cell.num 8],
       [Cell.str "i", Cell.num 9], [Cell.str "j", Cell.num 10]], 10, false⟩ =
      (let catCol := (analyzeColumns ⟨["region", "sales"],
        [[Cell.str "a", Cell.num 1], [Cell.str "b", Cell.num 2],
         [Cell.str "c", Cell.num 3], [Cell.str "d", Cell.num 4],
         [Cell.str "e", Cell.num 5], [Cell.str "f", Cell.num 6],
         [Cell.str "g", Cell.num 7], [Cell.str "h", Cell.num 8],
         [Cell.str "i", Cell.num 9], [Cell.str "j", Cell.num 10]], 10, false⟩).categoricalColumns.headD ""
       let n0 := (analyzeColumns ⟨["region", "sales"],
        [[Cell.str "a", Cell.num 1], [Cell.str "b", Cell.num 2],
         [Cell.str "c", Cell.num 3], [Cell.str "d", Cell.num 4],
         [Cell.str "e", Cell.num 5], [Cell.str "f", Cell.num 6],
         [Cell.str "g", Cell.num 7], [Cell.str "h", Cell.num 8],
         [Cell.str "i", Cell.num 9], [Cell.str "j", Cell.num 10]], 10, false⟩).numericColumns.headD ""
       if getCardinality ⟨["region", "sales"],
        [[Cell.str "a", Cell.num 1], [Cell.str "b", Cell.num 2],
         [Cell.str "c", Cell.num 3], [Cell.str "d", Cell.num 4],
         [Cell.str "e", Cell.num 5], [Cell.str "f", Cell.num 6],
         [Cell.str "g", Cell.num 7], [Cell.str "h", Cell.num 8],
         [Cell.str "i", Cell.num 9], [Cell.str "j", Cell.num 10]], 10, false⟩ catCol ≤ 10 then
         some { chartType := "bar", title := some (n0 ++ " by " ++ catCol),
                xAxis := some { column := catCol, label := some catCol,
                                type := some "category" },
                yAxis := some { column := n0, label := some n0,
                                type := some "linear" },
                reasoning := some "Bar chart selected for comparing values across categories." }
       else
         some { chartType := "histogram",
                title := some ("Distribution of " ++ n0),
                yAxis := some { column := n0, label := some n0,
                                type := some "linear" },
                reasoning := some "Histogram selected to show distribution with many categories." }) := by
  refine ⟨by decide, by decide, by decide, ?_⟩
  exact generateVisualizationSpec_cardinality_switch _ (by decide) (by decide) (by decide)

lemma headD_mem {α : Type} {l : List α} (hl : l ≠ []) (d : α) : l.headD d ∈ l := by
  cases l with
  | nil => exact absurd rfl hl
  | cons a t => simp

lemma jsOrStr_get_mem {l : List String} (hl : l ≠ []) :
    (jsOrStr (l.get? 1) (l.get? 0)).getD "" ∈ l := by
  cases l with
  | nil => exact absurd rfl hl
  | cons a t =>
    cases t with
    | nil => simp [jsOrStr]
    | cons b t2 =>
      by_cases hb : b == ""
      · simp [jsOrStr, hb]
      · simp [jsOrStr, hb]

/-- C2: for a result with at least one column, every axis reference in the
spec returned by `validateVisualizationSpec` names a column present in the
result: an absent xAxis/yAxis column is replaced by a case-insensitive
substring match against existing columns, else by the first column for x
and the second-or-first column for y — never left dangling. -/
theorem validateVisualizationSpec_refs_present (spec : VisualizationSpec)
    (results : QueryResults) (hcols : results.columns ≠ []) :
    (∀ ax, (validateVisualizationSpec spec results).xAxis = some ax →
        ax.column ∈ results.columns) ∧
    (∀ ax, (validateVisualizationSpec spec results).yAxis = some ax →
        ax.column ∈ results.columns) := by
  constructor
  · intro ax hax
    cases hx : spec.xAxis with
    | none => simp [validateVisualizationSpec, hx] at hax
    | some ax0 =>
      simp only [validateVisualizationSpec, hx] at hax
      split at hax
      next hcont =>
        obtain rfl := Option.some_inj.mp hax
        exact List.elem_iff.1 hcont
      next hncont =>
        split at hax
        next similarColumn hfind =>
          obtain rfl := Option.some_inj.mp hax
          exact List.mem_of_find?_eq_some hfind
        next hfind =>
          obtain rfl := Option.some_inj.mp hax
          exact headD_mem hcols ""
  · intro ax hax
    cases hy : spec.yAxis with
    | none => simp [validateVisualizationSpec, hy] at hax
    | some ax0 =>
      simp only [validateVisualizationSpec, hy] at hax
      split at hax
      next hcont =>
        obtain rfl := Option.some_inj.mp hax
        exact List.elem_iff.1 hcont
      next hncont =>
        split at hax
        next similarColumn hfind =>
          obtain rfl := Option.some_inj.mp hax
          exact List.mem_of_find?_eq_some hfind
        next hfind =>
          obtain rfl := Option.some_inj.mp hax
          exact jsOrStr_get_mem hcols

/-- Witness for C2: a spec naming `rev` (repaired to `revenue` by the
substring match) and `zzz` (no match, repaired to the second column),
against columns `[month, revenue]`; both repaired references are present. -/
theorem validateVisualizationSpec_refs_present_witness :
    (["month", "revenue"] : List String) ≠ [] ∧
    validateVisualizationSpec
        { chartType := "bar", xAxis := some { column := "rev" },
          yAxis := some { column := "zzz" } }
        ⟨["month", "revenue"], [], 0, false⟩ =
      { chartType := "bar", title := some "Data Visualization",
        xAxis := some { column := "revenue" },
        yAxis := some { column := "revenue" } } ∧
    ((∀ ax, (validateVisualizationSpec
        { chartType := "bar", xAxis := some { column := "rev" },
          yAxis := some { column := "zzz" } }
        ⟨["month", "revenue"], [], 0, false⟩).xAxis = some ax →
        ax.column ∈ (⟨["month", "revenue"], [], 0, false⟩ : QueryResults).columns) ∧
     (∀ ax, (validateVisualizationSpec
        { chartType := "bar", xAxis := some { column := "rev" },
          yAxis := some { column := "zzz" } }
        ⟨["month", "revenue"], [], 0, false⟩).yAxis = some ax →
        ax.column ∈ (⟨["month", "revenue"], [], 0, false⟩ : QueryResults).columns)) := by
  refine ⟨by decide, by decide, ?_⟩
  exact validateVisualizationSpec_refs_present _ _ (by decide)

/-! ### Trace compiler data extraction (PlotlyChart: transformToPlotlyData's
getColumnIndex / getColumnData) -/

/-- Models `getColumnIndex`: case-insensitive exact lookup, silently falling back
to index 0 when the name matches no column (`index >= 0 ? index : 0`). -/
def getColumnIndex (columns : List String) (columnName : String) : ℕ :=
  match columns.findIdx? (fun col => jsToLower col == jsToLower columnName) with
  | some index => index
  | none => 0

/-- Models `getColumnData`: the named column's cells across all rows; the empty
series for an absent — or empty, hence falsy — column name. -/
def getColumnData (columns : List String) (rows : List (List Cell)) :
    Option String → List Cell
  | none => []
  | some columnName =>
    if columnName == "" then []
    else rows.map (fun row => getCell row (getColumnIndex columns columnName))

lemma findIdx?_go_eq_none_of_all {α : Type} (p : α → Bool) (l : List α)
    (h : ∀ a ∈ l, ¬ p a) : ∀ i, l.findIdx? p i = none := by
  induction l with
  | nil => intro i; rfl
  | cons a t ih =>
    intro i
    rw [List.findIdx?_cons, if_neg (by simpa using h a (List.mem_cons_self a t))]
    exact ih (fun b hb => h b (List.mem_cons_of_mem a hb)) (i + 1)

/-- C10: an axis column name with no case-insensitive exact match among the
result's columns resolves silently to column index 0 — the extracted data
series is exactly the first column's values, and is non-empty whenever
there are rows. Nothing is thrown and no mismatch is signalled: the
resolution is total and returns plain data. -/
theorem missing_column_resolves_to_first (columns : List String)
    (rows : List (List Cell)) (name : String)
    (hmiss : ∀ col ∈ columns, jsToLower col ≠ jsToLower name)
    (hname : name ≠ "") :
    getColumnIndex columns name = 0 ∧
    getColumnData columns rows (some name) =
      rows.map (fun row => getCell row 0) ∧
    (rows ≠ [] → getColumnData columns rows (some name) ≠ []) := by
  have hfind : columns.findIdx? (fun col => jsToLower col == jsToLower name) = none := by
    apply findIdx?_go_eq_none_of_all
    intro a ha
    simpa using hmiss a ha
  have hidx : getColumnIndex columns name = 0 := by
    unfold getColumnIndex
    rw [hfind]
  have hdata : getColumnData columns rows (some name) =
      rows.map (fun row => getCell row 0) := by
    simp only [getColumnData]
    rw [if_neg (by simpa using hname), hidx]
  refine ⟨hidx, hdata, fun hrows => ?_⟩
  rw [hdata]
  simpa using hrows

/-- Witness for C10: `sales` matches neither `month` nor `revenue`, so its
series is the first column (`month`) values. -/
theorem missing_column_resolves_to_first_witness :
    (∀ col ∈ (["month", "revenue"] : List String),
      jsToLower col ≠ jsToLower "sales") ∧
    ("sales" : String) ≠ "" ∧
    (getColumnIndex ["month", "revenue"] "sales" = 0 ∧
     getColumnData ["month", "revenue"] [[Cell.str "Jan", Cell.num 100]]
         (some "sales") =
       [[Cell.str "Jan", Cell.num 100]].map (fun row => getCell row 0) ∧
     ([[Cell.str "Jan", Cell.num 100]] ≠ ([] : List (List Cell)) →
      getColumnData ["month", "revenue"] [[Cell.str "Jan", Cell.num 100]]
        (some "sales") ≠ [])) := by
  refine ⟨by decide, by decide, ?_⟩
  exact missing_column_resolves_to_first _ _ _ (by decide) (by decide)

/-! ### Custom tick generation (PlotlyChart: generateFormattedTicks) -/

/-- Models `Math.min(...xs)` over a non-empty list (the 0 for `[]` is never used:
the callers return early on empty input). -/
def listMin : List ℚ → ℚ
  | [] => 0
  | a :: rest => rest.foldl min a

/-- Models `Math.max(...xs)` over a non-empty list. -/
def listMax : List ℚ → ℚ
  | [] => 0
  | a :: rest => rest.foldl max a

/-- A tick configuration (`{ tickvals, ticktext }`). -/
structure TickConfig where
  tickvals : List ℚ
  ticktext : List String
deriving DecidableEq

/-- Models `generateFormattedTicks`: null for a missing or unrecognized format or
an empty series; otherwise the values `min + range·i/numTicks` for
`i = 0..numTicks` with `numTicks = 6` (the loop bound is `i <= numTicks`,
so 7 values), each formatted through `formatWithNumberFormat`. The source
first filters NaN/null/undefined out of its `number[]` input; a `List ℚ`
holds none of those, so that filter is the identity here. -/
def generateFormattedTicks (dataValues : List ℚ) (numberFormat : Option String)
    (decimals : ℕ) : Option TickConfig :=
  match numberFormat with
  | none => none
  | some fmt =>
    let config := getNumberFormatConfig (some fmt)
    let isCompact := jsToLower fmt == "compact"
    if config.isNone && !isCompact then none
    else
      let validValues := dataValues
      if validValues.isEmpty then none
      else
        let minVal := listMin validValues
        let maxVal := listMax validValues
        let range := maxVal - minVal
        let numTicks : ℕ := 6
        let tickValues := (List.range (numTicks + 1)).map
          (fun i : ℕ => minVal + range * (i : ℚ) / (numTicks : ℚ))
        let tickLabels := tickValues.map (fun val =>
          if isCompact then formatWithNumberFormat val (some "compact") decimals
          else formatWithNumberFormat val (some fmt) decimals)
        some ⟨tickValues, tickLabels⟩

/-- C8 counterexample: with data `[0, 6]` and format `thousands`, the tick
generator emits 7 tick values (its loop runs `i = 0..6` inclusive), not 6. -/
theorem generateFormattedTicks_not_six :
    (generateFormattedTicks [0, 6] (some "thousands") 0).map
        (fun t => t.tickvals.length) = some 7 ∧ (7 : ℕ) ≠ 6 := by
  constructor
  · decide
  · decide

/-- C8 (amended): for every non-empty numeric series and recognized
`numberFormat`, the tick generator produces exactly 7 evenly spaced tick
values `min + range·i/6` (i = 0..6) spanning the series minimum (tick 0) to
its maximum (tick 6), each formatted through the same number formatter. -/
theorem generateFormattedTicks_seven_even_ticks (dataValues : List ℚ)
    (fmt : String) (decimals : ℕ) (hne : dataValues ≠ [])
    (hrec : (getNumberFormatConfig (some fmt)).isSome = true ∨
      jsToLower fmt = "compact") :
    ∃ t, generateFormattedTicks dataValues (some fmt) decimals = some t ∧
      t.tickvals.length = 7 ∧
      (∀ i : ℕ, i < 7 → t.tickvals.getD i 0 =
        listMin dataValues +
          (listMax dataValues - listMin dataValues) * i / 6) ∧
      t.tickvals.getD 0 0 = listMin dataValues ∧
      t.tickvals.getD 6 0 = listMax dataValues ∧
      t.ticktext = t.tickvals.map (fun val =>
        if jsToLower fmt == "compact"
        then formatWithNumberFormat val (some "compact") decimals
        else formatWithNumberFormat val (some fmt) decimals) := by
  have hguard : ¬ (((getNumberFormatConfig (some fmt)).isNone &&
      !(jsToLower fmt == "compact")) = true) := by
    cases hrec with
    | inl hsome =>
      have hfalse : (getNumberFormatConfig (some fmt)).isNone = false := by
        cases hcfg : getNumberFormatConfig (some fmt) with
        | none => rw [hcfg] at hsome; simp at hsome
        | some c => rfl
      simp [hfalse]
    | inr hcompact => simp [hcompact]
  have hnonempty : ¬ (dataValues.isEmpty = true) := by
    simpa using hne
  simp only [generateFormattedTicks]
  rw [if_neg hguard, if_neg hnonempty]
  refine ⟨_, rfl, ?_, ?_, ?_, ?_, rfl⟩
  · simp
  · intro i hi
    rw [List.getD_eq_getElem?_getD, List.getElem?_map, List.getElem?_range hi]
    rfl
  · rw [List.getD_eq_getElem?_getD, List.getElem?_map,
      List.getElem?_range (by norm_num : (0 : ℕ) < 7)]
    simp only [Option.map_some', Option.getD_some]
    push_cast
    ring
  · rw [List.getD_eq_getElem?_getD, List.getElem?_map,
      List.getElem?_range (by norm_num : (6 : ℕ) < 7)]
    simp only [Option.map_some', Option.getD_some]
    push_cast
    ring

/-- Witness for C8 at `[0, 6]` with format `thousands`: the theorem applies
and the seven ticks run from 0 (the minimum) to 6 (the maximum). -/
theorem generateFormattedTicks_seven_even_ticks_witness :
    (([0, 6] : List ℚ) ≠ []) ∧
    ((getNumberFormatConfig (some "thousands")).isSome = true ∨
      jsToLower "thousands" = "compact") ∧
    (∃ t, generateFormattedTicks [0, 6] (some "thousands") 0 = some t ∧
      t.tickvals.length = 7 ∧
      (∀ i : ℕ, i < 7 → t.tickvals.getD i 0 =
        listMin [0, 6] + (listMax [0, 6] - listMin [0, 6]) * i / 6) ∧
      t.tickvals.getD 0 0 = listMin [0, 6] ∧
      t.tickvals.getD 6 0 = listMax [0, 6] ∧
      t.ticktext = t.tickvals.map (fun val =>
        if jsToLower "thousands" == "compact"
        then formatWithNumberFormat val (some "compact") 0
        else formatWithNumberFormat val (some "thousands") 0)) := by
  refine ⟨by decide, by decide, ?_⟩
  exact generateFormattedTicks_seven_even_ticks [0, 6] "thousands" 0
    (by decide) (by decide)

/-! ### Heatmap pivot (PlotlyChart: transformToPlotlyData, heatmap case) -/

/-- JavaScript `String()` on the cells this code converts (numbers are
intercepted by a `typeof` check before every conversion modelled here, so
the `num` rendering is never reached on those paths; integers render
exactly). -/
def cellToString : Cell → String
  | .num q => if q.den = 1 then toString q.num
              else toString q.num ++ "/" ++ toString q.den
  | .str s => s
  | .cbool true => "true"
  | .cbool false => "false"
  | .null => "null"
  | .undefined => "undefined"

/-- Models `typeof zVal === 'number' ? zVal : parseFloat(String(zVal)) || 0`: the
z value parsed as a number, 0 when unparsable (NaN is falsy). -/
def zParse : Cell → ℚ
  | .num q => q
  | v => (parseFloat (cellToString v)).getD 0

/-- The three column names of the heatmap branch after its
`spec.?Axis?.column || columns[i]` fallbacks. -/
structure HeatmapCols where
  xName : String
  yName : String
  zName : String
deriving DecidableEq

/-- Resolve the heatmap's x/y/z column names; `none` models the `undefined`
name on which `getColumnIndex` would throw a TypeError — caught by the
compiler's try/catch, which then renders no chart. -/
def resolveHeatmapCols (columns : List String)
    (spec : VisualizationSpec) : Option HeatmapCols :=
  match jsOrStr (spec.xAxis.map (fun ax => ax.column)) (columns.get? 0),
        jsOrStr (spec.yAxis.map (fun ax => ax.column)) (columns.get? 1),
        jsOrStr (spec.zAxis.map (fun ax => ax.column)) (columns.get? 2) with
  | some xName, some yName, some zName => some ⟨xName, yName, zName⟩
  | _, _, _ => none

/-- One heatmap trace: distinct x values, distinct y values, z matrix. -/
structure HeatmapTrace where
  x : List Cell
  y : List Cell
  z : List (List ℚ)
deriving DecidableEq

/-- Models `matrix[i][j] = v` (writes land in range here: the indices come from
`indexOf` over the lists that dimension the matrix). -/
def updateMatrix (m : List (List ℚ)) (i j : ℕ) (v : ℚ) : List (List ℚ) :=
  m.set i ((m.getD i []).set j v)

/-- Matrix read `matrix[i][j]`, 0 out of range. -/
def getMatrix (m : List (List ℚ)) (i j : ℕ) : ℚ :=
  (m.getD i []).getD j 0

/-- One row's write into the pivot: its x/y cell values looked up in the
distinct-value lists (`indexOf`; `none` models -1), with the parsed z value.
Mirrors the body of the source's `rows.forEach`. -/
def rowWrite (columns : List String) (cols : HeatmapCols)
    (uniqueX uniqueY : List Cell) (row : List Cell) : Option (ℕ × ℕ × ℚ) :=
  let xVal := getCell row (getColumnIndex columns cols.xName)
  let yVal := getCell row (getColumnIndex columns cols.yName)
  let zVal := getCell row (getColumnIndex columns cols.zName)
  match uniqueY.findIdx? (fun c => c == yVal),
        uniqueX.findIdx? (fun c => c == xVal) with
  | some yIdx, some xIdx => some (yIdx, xIdx, zParse zVal)
  | _, _ => none

/-- Apply an optional write to the matrix (the guarded assignment of the
source: no write when an `indexOf` returned -1). -/
def applyWrite (m : List (List ℚ)) : Option (ℕ × ℕ × ℚ) → List (List ℚ)
  | some (i, j, v) => updateMatrix m i j v
  | none => m

/-- The `rows.forEach` filling loop over an initial matrix. -/
def foldWrites {α : Type} (f : α → Option (ℕ × ℕ × ℚ)) (rows : List α)
    (m0 : List (List ℚ)) : List (List ℚ) :=
  rows.foldl (fun m r => applyWrite m (f r)) m0

/-- Whether a row writes cell (i, j). -/
def isWriteAt {α : Type} (f : α → Option (ℕ × ℕ × ℚ)) (r : α) (i j : ℕ) : Bool :=
  match f r with
  | some (i0, j0, _) => i0 == i && j0 == j
  | none => false

/-- The value a row writes (0 if it writes nothing; read only under
`isWriteAt`). -/
def writeVal {α : Type} (f : α → Option (ℕ × ℕ × ℚ)) (r : α) : ℚ :=
  match f r with
  | some (_, _, v) => v
  | none => 0

/-- Models `transformToPlotlyData`'s heatmap case: distinct x and y values in order
of first appearance, a zero-initialized |Y|×|X| matrix, then one guarded
write per row. `none` models the thrown-and-caught lookup on an `undefined`
column name (reachable only when the spec omits an axis and the result has
too few columns; the enclosing compiler already returned an empty trace
list when `rows` or `columns` is empty). -/
def transformHeatmap (results : QueryResults)
    (spec : VisualizationSpec) : Option HeatmapTrace :=
  let columns := results.columns
  let rows := results.rows
  let xData := getColumnData columns rows (spec.xAxis.map (fun ax => ax.column))
  let yData := getColumnData columns rows (spec.yAxis.map (fun ax => ax.column))
  let uniqueX := dedupFirst xData
  let uniqueY := dedupFirst yData
  match resolveHeatmapCols columns spec with
  | none => none
  | some cols =>
    let initMatrix : List (List ℚ) :=
      uniqueY.map (fun _ => uniqueX.map (fun _ => 0))
    some ⟨uniqueX, uniqueY,
      foldWrites (rowWrite columns cols uniqueX uniqueY) rows initMatrix⟩

/-- Reference cell value, following the spec's words: the parsed z value of
the last row whose x/y values address cell (i, j), and 0 for a cell
addressed by no row. -/
def lastWriteZ (results : QueryResults) (cols : HeatmapCols)
    (uniqueX uniqueY : List Cell) (i j : ℕ) : ℚ :=
  match results.rows.reverse.find?
      (fun row => isWriteAt (rowWrite results.columns cols uniqueX uniqueY) row i j) with
  | some row => writeVal (rowWrite results.columns cols uniqueX uniqueY) row
  | none => 0

lemma updateMatrix_length (m : List (List ℚ)) (i0 j0 : ℕ) (v : ℚ) :
    (updateMatrix m i0 j0 v).length = m.length := by
  simp [updateMatrix]

lemma updateMatrix_row_length (m : List (List ℚ)) (i0 j0 : ℕ) (v : ℚ) (i : ℕ) :
    ((updateMatrix m i0 j0 v).getD i []).length = (m.getD i []).length := by
  simp only [updateMatrix, List.getD_eq_getElem?_getD, List.getElem?_set]
  by_cases hii : i0 = i
  · subst hii
    rw [if_pos rfl]
    by_cases hlt : i0 < m.length
    · rw [if_pos hlt]
      simp [List.length_set]
    · rw [if_neg hlt, List.getElem?_eq_none (Nat.le_of_not_lt hlt)]
  · rw [if_neg hii]

lemma getMatrix_updateMatrix (m : List (List ℚ)) (i0 j0 : ℕ) (v : ℚ) (i j : ℕ)
    (hi : i < m.length) (hj : j < (m.getD i []).length) :
    getMatrix (updateMatrix m i0 j0 v) i j =
      if i0 = i ∧ j0 = j then v else getMatrix m i j := by
  unfold getMatrix updateMatrix
  simp only [List.getD_eq_getElem?_getD, List.getElem?_set]
  by_cases hii : i0 = i
  · subst hii
    rw [if_pos rfl, if_pos hi]
    simp only [Option.getD_some]
    rw [List.getElem?_set]
    by_cases hjj : j0 = j
    · subst hjj
      have hjlt : j0 < (m[i0]?.getD []).length := by
        rwa [List.getD_eq_getElem?_getD] at hj
      rw [if_pos rfl, if_pos hjlt]
      simp
    · rw [if_neg hjj, if_neg (fun hcon => hjj hcon.2)]
  · rw [if_neg hii, if_neg (fun hcon => hii hcon.1)]

lemma applyWrite_length (m : List (List ℚ)) (w : Option (ℕ × ℕ × ℚ)) :
    (applyWrite m w).length = m.length := by
  cases w with
  | none => rfl
  | some t =>
    obtain ⟨i, j, v⟩ := t
    show (updateMatrix m i j v).length = m.length
    exact updateMatrix_length m i j v

lemma applyWrite_row_length (m : List (List ℚ)) (w : Option (ℕ × ℕ × ℚ)) (i : ℕ) :
    ((applyWrite m w).getD i []).length = (m.getD i []).length := by
  cases w with
  | none => rfl
  | some t =>
    obtain ⟨i0, j0, v⟩ := t
    show ((updateMatrix m i0 j0 v).getD i []).length = (m.getD i []).length
    exact updateMatrix_row_length m i0 j0 v i

lemma getMatrix_applyWrite (m : List (List ℚ)) (w : Option (ℕ × ℕ × ℚ))
    (i j : ℕ) (hi : i < m.length) (hj : j < (m.getD i []).length) :
    getMatrix (applyWrite m w) i j =
      (match w with
       | some (i0, j0, v) => if i0 = i ∧ j0 = j then v else getMatrix m i j
       | none => getMatrix m i j) := by
  cases w with
  | none => rfl
  | some t =>
    obtain ⟨i0, j0, v⟩ := t
    exact getMatrix_updateMatrix m i0 j0 v i j hi hj

lemma foldWrites_length {α : Type} (f : α → Option (ℕ × ℕ × ℚ))
    (rows : List α) (m0 : List (List ℚ)) :
    (foldWrites f rows m0).length = m0.length := by
  induction rows generalizing m0 with
  | nil => rfl
  | cons r rs ih =>
    rw [show foldWrites f (r :: rs) m0 = foldWrites f rs (applyWrite m0 (f r)) from rfl,
      ih, applyWrite_length]

lemma foldWrites_row_length {α : Type} (f : α → Option (ℕ × ℕ × ℚ))
    (rows : List α) (m0 : List (List ℚ)) (i : ℕ) :
    ((foldWrites f rows m0).getD i []).length = (m0.getD i []).length := by
  induction rows generalizing m0 with
  | nil => rfl
  | cons r rs ih =>
    rw [show foldWrites f (r :: rs) m0 = foldWrites f rs (applyWrite m0 (f r)) from rfl,
      ih, applyWrite_row_length]

lemma getMatrix_foldWrites {α : Type} (f : α → Option (ℕ × ℕ × ℚ))
    (rows : List α) (m0 : List (List ℚ)) (i j : ℕ)
    (hi : i < m0.length) (hj : j < (m0.getD i []).length) :
    getMatrix (foldWrites f rows m0) i j =
      (match rows.reverse.find? (fun r => isWriteAt f r i j) with
       | some r => writeVal f r
       | none => getMatrix m0 i j) := by
  induction rows generalizing m0 with
  | nil => rfl
  | cons r rs ih =>
    have hi' : i < (applyWrite m0 (f r)).length := by
      rw [applyWrite_length]; exact hi
    have hj' : j < ((applyWrite m0 (f r)).getD i []).length := by
      rw [applyWrite_row_length]; exact hj
    have hstep := ih (applyWrite m0 (f r)) hi' hj'
    rw [show foldWrites f (r :: rs) m0 = foldWrites f rs (applyWrite m0 (f r)) from rfl,
      hstep, List.reverse_cons, List.find?_append]
    cases hfind : rs.reverse.find? (fun r' => isWriteAt f r' i j) with
    | some r' => rfl
    | none =>
      simp only [Option.none_or]
      by_cases hw : isWriteAt f r i j
      · rw [show ([r].find? (fun r' => isWriteAt f r' i j)) = some r by
          simp [List.find?, hw]]
        rw [getMatrix_applyWrite m0 (f r) i j hi hj]
        show (match f r with
          | some (i0, j0, v) => if i0 = i ∧ j0 = j then v else getMatrix m0 i j
          | none => getMatrix m0 i j) = writeVal f r
        unfold isWriteAt at hw
        unfold writeVal
        cases hfr : f r with
        | none => rw [hfr] at hw; simp at hw
        | some t =>
          obtain ⟨i0, j0, v⟩ := t
          rw [hfr] at hw
          simp only [beq_iff_eq, Bool.and_eq_true] at hw
          simp [hw.1, hw.2]
      · rw [show ([r].find? (fun r' => isWriteAt f r' i j)) = none by
          simp [List.find?, hw]]
        rw [getMatrix_applyWrite m0 (f r) i j hi hj]
        show (match f r with
          | some (i0, j0, v) => if i0 = i ∧ j0 = j then v else getMatrix m0 i j
          | none => getMatrix m0 i j) = getMatrix m0 i j
        unfold isWriteAt at hw
        cases hfr : f r with
        | none => rfl
        | some t =>
          obtain ⟨i0, j0, v⟩ := t
          rw [hfr] at hw
          simp only [beq_iff_eq, Bool.and_eq_true, not_and] at hw
          show (if i0 = i ∧ j0 = j then v else getMatrix m0 i j) =
            getMatrix m0 i j
          rw [if_neg (fun hcon => (hw hcon.1) hcon.2)]

lemma getD_map_zero (l : List Cell) (j : ℕ) :
    ((l.map (fun _ => (0 : ℚ))).getD j 0) = 0 := by
  rw [List.getD_eq_getElem?_getD, List.getElem?_map]
  cases l[j]? <;> simp

/-- C7: whenever the heatmap's column names resolve, the compiled trace has
x = the distinct x values and y = the distinct y values (order of first
appearance), its z matrix has exactly |Y| rows of exactly |X| cells, and
every cell (i, j) holds the parsed z value of the last row addressing it —
in particular the parsed value of some addressing row — and 0 when no row
addresses it. -/
theorem heatmap_pivot_correct (results : QueryResults)
    (spec : VisualizationSpec) (cols : HeatmapCols)
    (hres : resolveHeatmapCols results.columns spec = some cols) :
    ∃ t, transformHeatmap results spec = some t ∧
      t.x = dedupFirst (getColumnData results.columns results.rows
        (spec.xAxis.map (fun ax => ax.column))) ∧
      t.y = dedupFirst (getColumnData results.columns results.rows
        (spec.yAxis.map (fun ax => ax.column))) ∧
      t.z.length = t.y.length ∧
      (∀ zrow ∈ t.z, zrow.length = t.x.length) ∧
      (∀ i j, i < t.y.length → j < t.x.length →
        getMatrix t.z i j = lastWriteZ results cols t.x t.y i j) := by
  simp only [transformHeatmap, hres]
  set uniqueX := dedupFirst (getColumnData results.columns results.rows
    (spec.xAxis.map (fun ax => ax.column))) with hXdef
  set uniqueY := dedupFirst (getColumnData results.columns results.rows
    (spec.yAxis.map (fun ax => ax.column))) with hYdef
  set initMatrix : List (List ℚ) :=
    uniqueY.map (fun _ => uniqueX.map (fun _ => 0)) with hInit
  have hinitlen : initMatrix.length = uniqueY.length := by
    simp [hInit]
  have hinitrow : ∀ i, i < uniqueY.length →
      (initMatrix.getD i []).length = uniqueX.length := by
    intro i hiY
    rw [hInit, List.getD_eq_getElem?_getD, List.getElem?_map,
      List.getElem?_eq_getElem hiY]
    simp
  have hinitcell : ∀ i j, getMatrix initMatrix i j = 0 := by
    intro i j
    unfold getMatrix
    rw [hInit]
    simp only [List.getD_eq_getElem?_getD, List.getElem?_map]
    cases uniqueY[i]? with
    | none => simp
    | some c =>
      simp only [Option.map_some', Option.getD_some, List.getElem?_map]
      cases uniqueX[j]? <;> simp
  refine ⟨_, rfl, rfl, rfl, ?_, ?_, ?_⟩
  · show (foldWrites _ results.rows initMatrix).length = uniqueY.length
    rw [foldWrites_length, hinitlen]
  · intro zrow hmem
    have hmem' : zrow ∈ foldWrites (rowWrite results.columns cols uniqueX uniqueY)
        results.rows initMatrix := hmem
    show zrow.length = uniqueX.length
    rcases List.mem_iff_getElem?.1 hmem' with ⟨n, hn⟩
    obtain ⟨hlt, -⟩ := List.getElem?_eq_some_iff.1 hn
    have hnlen : n < uniqueY.length := by
      rwa [foldWrites_length, hinitlen] at hlt
    have hrow : (foldWrites (rowWrite results.columns cols uniqueX uniqueY)
        results.rows initMatrix).getD n [] = zrow := by
      rw [List.getD_eq_getElem?_getD, hn]
      rfl
    calc zrow.length
        = ((foldWrites (rowWrite results.columns cols uniqueX uniqueY)
            results.rows initMatrix).getD n []).length := by rw [hrow]
      _ = (initMatrix.getD n []).length := foldWrites_row_length _ _ _ _
      _ = uniqueX.length := hinitrow n hnlen
  · intro i j hiY hjX
    have hi : i < initMatrix.length := by rwa [hinitlen]
    have hj : j < (initMatrix.getD i []).length := by
      rw [hinitrow i hiY]; exact hjX
    show getMatrix (foldWrites (rowWrite results.columns cols uniqueX uniqueY)
        results.rows initMatrix) i j = lastWriteZ results cols uniqueX uniqueY i j
    rw [getMatrix_foldWrites _ _ _ _ _ hi hj]
    unfold lastWriteZ
    cases hfind : results.rows.reverse.find?
        (fun row => isWriteAt (rowWrite results.columns cols uniqueX uniqueY) row i j) with
    | some row => rfl
    | none => exact hinitcell i j

/-- Witness for C7 at the claim's example shape: 3 distinct x values, 2
distinct y values, numeric z; the emitted matrix is exactly 2×3 and the
cells addressed by no row are 0. -/
theorem heatmap_pivot_correct_witness :
    resolveHeatmapCols ["city", "segment", "val"]
        { chartType := "heatmap", xAxis := some { column := "city" },
          yAxis := some { column := "segment" },
          zAxis := some { column := "val" } } =
      some ⟨"city", "segment", "val"⟩ ∧
    transformHeatmap
        ⟨["city", "segment", "val"],
         [[Cell.str "a", Cell.str "u", Cell.num 1],
          [Cell.str "b", Cell.str "u", Cell.num 2],
          [Cell.str "c", Cell.str "u", Cell.num 3],
          [Cell.str "a", Cell.str "v", Cell.num 4]], 4, false⟩
        { chartType := "heatmap", xAxis := some { column := "city" },
          yAxis := some { column := "segment" },
          zAxis := some { column := "val" } } =
      some ⟨[Cell.str "a", Cell.str "b", Cell.str "c"],
            [Cell.str "u", Cell.str "v"],
            [[1, 2, 3], [4, 0, 0]]⟩ ∧
    (∃ t, transformHeatmap
        ⟨["city", "segment", "val"],
         [[Cell.str "a", Cell.str "u", Cell.num 1],
          [Cell.str "b", Cell.str "u", Cell.num 2],
          [Cell.str "c", Cell.str "u", Cell.num 3],
          [Cell.str "a", Cell.str "v", Cell.num 4]], 4, false⟩
        { chartType := "heatmap", xAxis := some { column := "city" },
          yAxis := some { column := "segment" },
          zAxis := some { column := "val" } } = some t ∧
      t.x = dedupFirst (getColumnData ["city", "segment", "val"]
        [[Cell.str "a", Cell.str "u", Cell.num 1],
         [Cell.str "b", Cell.str "u", Cell.num 2],
         [Cell.str "c", Cell.str "u", Cell.num 3],
         [Cell.str "a", Cell.str "v", Cell.num 4]] (some "city")) ∧
      t.y = dedupFirst (getColumnData ["city", "segment", "val"]
        [[Cell.str "a", Cell.str "u", Cell.num 1],
         [Cell.str "b", Cell.str "u", Cell.num 2],
         [Cell.str "c", Cell.str "u", Cell.num 3],
         [Cell.str "a", Cell.str "v", Cell.num 4]] (some "segment")) ∧
      t.z.length = t.y.length ∧
      (∀ zrow ∈ t.z, zrow.length = t.x.length) ∧
      (∀ i j, i < t.y.length → j < t.x.length →
        getMatrix t.z i j = lastWriteZ
          ⟨["city", "segment", "val"],
           [[Cell.str "a", Cell.str "u", Cell.num 1],
            [Cell.str "b", Cell.str "u", Cell.num 2],
            [Cell.str "c", Cell.str "u", Cell.num 3],
            [Cell.str "a", Cell.str "v", Cell.num 4]], 4, false⟩
          ⟨"city", "segment", "val"⟩ t.x t.y i j)) := by
  refine ⟨by decide, by decide, ?_⟩
  exact heatmap_pivot_correct _ _ _ (by decide)

end

end Viz
